import Mathlib

/-!
# LightBnB data-access layer (`server/database.js`)

A shallow embedding of the accessors of `server/database.js` and of the statement
builder inside `getAllProperties`, followed by the properties established about them.

Modelling conventions.

* A JavaScript value that reaches the store as a positional parameter is a `Scalar`:
  a number or a string. A number is an IEEE 754 double: `NaN`, an infinity, or a signed
  finite value `m * 2 ^ e`; products are rounded to the nearest double, ties to even.
  A string used as a factor is first converted by the language's `StringToNumber`.
  (A decimal literal is rounded correctly whatever its number of digits.)
* An optional key of an object is an `Option`; `none` is the missing key (`undefined`).
* A promise is modelled by its settled outcome together with the lines written to the
  console while it settled.
-/

set_option maxRecDepth 100000

namespace LightBnB

/-! ## Numbers -/

/-- A JavaScript number: `NaN`, an infinity, or the finite value
`(-1) ^ negative * m * 2 ^ e`. The doubles are the values with `m < 2 ^ 53`,
`-1074 ≤ e` and `m * 2 ^ e < 2 ^ 1024`; the functions below return them with `m` odd
(and `e = 0` when `m = 0`), so that equal values are equal terms. -/
inductive Number where
  | nan
  | inf (negative : Bool)
  | fin (negative : Bool) (m : Nat) (e : Int)
  deriving DecidableEq

/-- Number of binary digits of `n`, with a step budget. -/
def bitLengthFrom : Nat → Nat → Nat
  | 0, _ => 0
  | fuel + 1, n => if n = 0 then 0 else bitLengthFrom fuel (n / 2) + 1

/-- Number of binary digits of `n` (`0` for `0`). -/
def bitLength (n : Nat) : Nat :=
  bitLengthFrom n n

/-- Halves an even non-zero `m` while raising `e`, with a step budget. -/
def stripFrom : Nat → Nat → Int → Nat × Int
  | 0, m, e => (m, e)
  | fuel + 1, m, e =>
    if m % 2 = 0 ∧ m ≠ 0 then stripFrom fuel (m / 2) (e + 1) else (m, e)

/-- The finite value `m * 2 ^ e` with `m` made odd. -/
def normalize (negative : Bool) (m : Nat) (e : Int) : Number :=
  if m = 0 then Number.fin negative 0 0
  else Number.fin negative (stripFrom m m e).1 (stripFrom m m e).2

/-- Round to nearest, ties to even: `down` is the quotient of a division by `whole`
and `rest` its remainder. -/
def roundUp (down rest whole : Nat) : Nat :=
  if 2 * rest > whole ∨ (2 * rest = whole ∧ down % 2 = 1) then down + 1 else down

/-- The rounded value `mant * 2 ^ x`, or an infinity when it reaches `2 ^ 1024`. -/
def finish (negative : Bool) (mant : Nat) (x : Int) : Number :=
  if (bitLength mant : Int) + x > 1024 then Number.inf negative else normalize negative mant x

/-- The double nearest to `m * 2 ^ e`. The last place kept is `2 ^ x`: 53 binary
digits, but no place below `2 ^ (-1074)` and none below `2 ^ e`. -/
def roundScaled (negative : Bool) (m : Nat) (e : Int) : Number :=
  let x : Int := max (max (e + bitLength m - 53) (-1074)) e
  let whole : Nat := 2 ^ (x - e).toNat
  finish negative (roundUp (m / whole) (m % whole) whole) x

/-- The double nearest to `p / q` for `q > 0`. With `t` the difference of the bit
lengths, `p / q` lies in `[2 ^ t, 2 ^ (t + 1))` or in `[2 ^ (t - 1), 2 ^ t)`. -/
def roundRatio (negative : Bool) (p q : Nat) : Number :=
  let t : Int := (bitLength p : Int) - bitLength q
  let x : Int := max (if p * 2 ^ (-t).toNat ≥ q * 2 ^ t.toNat then t - 52 else t - 53) (-1074)
  let n : Nat := p * 2 ^ (-x).toNat
  let d : Nat := q * 2 ^ x.toNat
  finish negative (roundUp (n / d) (n % d) d) x

/-- The operator `*` on numbers. -/
def Number.mul : Number → Number → Number
  | .nan, _ => .nan
  | _, .nan => .nan
  | .inf s, .inf t => .inf (s != t)
  | .inf s, .fin t m _ => if m = 0 then .nan else .inf (s != t)
  | .fin s m _, .inf t => if m = 0 then .nan else .inf (s != t)
  | .fin s m e, .fin t n f => roundScaled (s != t) (m * n) (e + f)

/-- The number denoted by an integer literal. -/
def Number.ofInt (n : Int) : Number :=
  roundScaled (decide (n < 0)) n.natAbs 0

/-- White space and line terminators, which `StringToNumber` strips at both ends. -/
def isStrWhiteSpace (c : Char) : Bool :=
  [9, 10, 11, 12, 13, 32, 160, 5760, 8232, 8233, 8239, 8287, 12288, 65279].contains c.toNat
    || (8192 ≤ c.toNat && c.toNat ≤ 8202)

/-- Value of a digit character in radix up to 16. -/
def digitValue (c : Char) : Option Nat :=
  if '0' ≤ c ∧ c ≤ '9' then some (c.toNat - 48)
  else if 'a' ≤ c ∧ c ≤ 'f' then some (c.toNat - 87)
  else if 'A' ≤ c ∧ c ≤ 'F' then some (c.toNat - 55)
  else none

/-- Value of a non-empty run of digits in the given radix; `none` when a character is
not such a digit. -/
def radixValue (radix : Nat) (cs : List Char) : Option Nat :=
  if cs.isEmpty then none
  else cs.foldl (fun acc c =>
    match acc, digitValue c with
    | some a, some d => if d < radix then some (a * radix + d) else none
    | _, _ => none) (some 0)

/-- The value of the digits after `0x`, `0o` or `0b`. -/
def radixLiteral (radix : Nat) (ds : List Char) : Number :=
  match radixValue radix ds with
  | some v => roundScaled false v 0
  | none => Number.nan

/-- Value of a run of decimal digits. -/
def decimalValue (cs : List Char) : Nat :=
  cs.foldl (fun a c => a * 10 + (c.toNat - 48)) 0

/-- Value of a text that is a non-empty run of decimal digits. -/
def decimalDigits (ds : List Char) : Option Nat :=
  if ds.isEmpty ∨ ¬ ds.all Char.isDigit then none else some (decimalValue ds)

/-- The optional exponent part `e`, `e+` or `e-` followed by decimal digits, which must
end the text; `none` when what is left is anything else. -/
def exponentPart (cs : List Char) : Option Int :=
  match cs with
  | [] => some 0
  | c :: rest =>
    if c = 'e' ∨ c = 'E' then
      match rest with
      | '+' :: ds => (decimalDigits ds).map (fun v => (v : Int))
      | '-' :: ds => (decimalDigits ds).map (fun v => -(v : Int))
      | ds => (decimalDigits ds).map (fun v => (v : Int))
    else none

/-- The value of an unsigned decimal literal (`Infinity`, `1`, `1.`, `1.5`, `.5`, each
but the first with an optional exponent part), `NaN` when the text is none. -/
def unsignedDecimal (negative : Bool) (cs : List Char) : Number :=
  if cs = "Infinity".data then Number.inf negative
  else
    let whole := cs.takeWhile Char.isDigit
    let afterWhole := cs.dropWhile Char.isDigit
    let hasDot := afterWhole.head? = some '.'
    let fraction := if hasDot then (afterWhole.drop 1).takeWhile Char.isDigit else []
    let afterFraction := if hasDot then (afterWhole.drop 1).dropWhile Char.isDigit else afterWhole
    if whole.isEmpty ∧ fraction.isEmpty then Number.nan
    else
      match exponentPart afterFraction with
      | none => Number.nan
      | some ex =>
        let digits := decimalValue (whole ++ fraction)
        let k : Int := ex - fraction.length
        if k ≥ 0 then roundScaled negative (digits * 10 ^ k.toNat) 0
        else roundRatio negative digits (10 ^ (-k).toNat)

/-- The conversion `StringToNumber` of the language: the empty or blank string is `0`,
a hexadecimal, octal or binary literal has no sign, anything that is not a numeric
literal is `NaN`. -/
def stringToNumber (s : String) : Number :=
  let cs := ((s.data.dropWhile isStrWhiteSpace).reverse.dropWhile isStrWhiteSpace).reverse
  match cs with
  | [] => Number.fin false 0 0
  | '0' :: 'x' :: ds | '0' :: 'X' :: ds => radixLiteral 16 ds
  | '0' :: 'o' :: ds | '0' :: 'O' :: ds => radixLiteral 8 ds
  | '0' :: 'b' :: ds | '0' :: 'B' :: ds => radixLiteral 2 ds
  | '+' :: ds => unsignedDecimal false ds
  | '-' :: ds => unsignedDecimal true ds
  | ds => unsignedDecimal false ds

/-- JavaScript truthiness of a number: `0`, `-0` and `NaN` are falsy. -/
def Number.truthy : Number → Bool
  | .nan => false
  | .inf _ => true
  | .fin _ m _ => m != 0

/-! ## Values -/

/-- Scalar values passed to the store as positional parameters. -/
inductive Scalar where
  | num (x : Number)
  | str (s : String)
  deriving DecidableEq

/-- The scalar denoted by an integer literal. -/
def Scalar.int (n : Int) : Scalar :=
  Scalar.num (Number.ofInt n)

/-- JavaScript truthiness of a scalar: `0`, `-0`, `NaN` and the empty string are falsy;
every other number and every other string (`"0"` included) is truthy. -/
def Scalar.truthy : Scalar → Bool
  | .num x => x.truthy
  | .str s => s != ""

/-- The conversion `ToNumber` applied to a scalar. -/
def Scalar.toNumber : Scalar → Number
  | .num x => x
  | .str s => stringToNumber s

/-- The expression `value * 100`. -/
def Scalar.times100 (value : Scalar) : Scalar :=
  Scalar.num (Number.mul value.toNumber (Number.ofInt 100))

/-- Truthiness of `object.key` for an optional scalar key; a missing key reads
`undefined`, which is falsy. -/
def truthyScalar : Option Scalar → Bool
  | some v => v.truthy
  | none => false

/-- Truthiness of `object.key` for an optional string key. -/
def truthyStr : Option String → Bool
  | some s => s != ""
  | none => false

/-- A row record returned by the store: column names with their values. -/
abbrev Row := List (String × Scalar)

/-- What an accessor hands back to its caller once its promise is fulfilled. -/
inductive Value where
  | undefined
  | null
  | row (r : Row)
  | rows (rs : List Row)
  deriving DecidableEq

/-! ## The store gateway and promises -/

/-- The error object a failed `pool.query` rejects with. -/
structure StoreError where
  message : String
  deriving DecidableEq

/-- The result object of a successful `pool.query`; the driver always supplies the
array `rows`. -/
structure QueryResult where
  rows : List Row
  deriving DecidableEq

/-- The connection pool: `query text values` settles with a result or a failure. -/
structure Pool where
  query : String → List Scalar → Except StoreError QueryResult

/-- A settled promise: the console lines written on the way and the outcome
(`ok` is fulfilled, `error` is rejected). -/
structure Promise (α : Type) where
  console : List String
  settled : Except StoreError α

/-- The promise returned by `pool.query(text, values)`. -/
def Pool.run (pool : Pool) (text : String) (values : List Scalar) : Promise QueryResult :=
  ⟨[], pool.query text values⟩

/-- The method `.then(f)` for a handler `f` that does not throw. -/
def Promise.thenDo {α β : Type} (p : Promise α) (f : α → β) : Promise β :=
  match p.settled with
  | .ok a => ⟨p.console, .ok (f a)⟩
  | .error e => ⟨p.console, .error e⟩

/-- The method `.catch(h)`: a rejection is handed to `h`, whose console output is
appended and whose return value fulfils the resulting promise. -/
def Promise.catchDo {α : Type} (p : Promise α) (h : StoreError → List String × α) :
    Promise α :=
  match p.settled with
  | .ok a => ⟨p.console, .ok a⟩
  | .error e => ⟨p.console ++ (h e).1, .ok (h e).2⟩

/-- The call `console.log(msg)`: writes one line and returns `undefined`. -/
def consoleLog (msg : String) : List String × Value :=
  ([msg], Value.undefined)

/-- Truthiness of an array reference: every array, the empty one included, is truthy. -/
def rowsTruthy (_rows : List Row) : Bool := true

/-- The expression `rows[0]`: the first row, or `undefined` for an empty array. -/
def firstRow : List Row → Value
  | [] => Value.undefined
  | r :: _ => Value.row r

/-! ## Users -/

/-- Statement text of `getUserWithEmail`. -/
def getUserWithEmailText : String :=
  "\n    SELECT *\n    FROM users\n    WHERE email = $1;\n    "

/-- Get a single user from the database given their email. -/
def getUserWithEmail (pool : Pool) (email : Scalar) : Promise Value :=
  ((pool.run getUserWithEmailText [email]).thenDo
      (fun res => if !rowsTruthy res.rows then Value.null else firstRow res.rows)).catchDo
    (fun err => consoleLog err.message)

/-- The argument of `addUser`. -/
structure User where
  name : Scalar
  email : Scalar
  password : Scalar
  deriving DecidableEq

/-- Statement text of `addUser`. -/
def addUserText : String :=
  "\n    INSERT INTO users (name, email, password)\n    VALUES ($1, $2, $3)\n    RETURNING *;\n    "

/-- Add a new user to the database. -/
def addUser (pool : Pool) (user : User) : Promise Value :=
  ((pool.run addUserText [user.name, user.email, user.password]).thenDo
      (fun res => if !rowsTruthy res.rows then Value.null else Value.rows res.rows)).catchDo
    (fun err => consoleLog err.message)

/-! ## Properties: the search statement -/

/-- The `options` argument of `getAllProperties`. -/
structure Options where
  owner_id : Option Scalar
  city : Option String
  minimum_price_per_night : Option Scalar
  maximum_price_per_night : Option Scalar
  minimum_rating : Option Scalar
  deriving DecidableEq

/-- Statement text of the owner branch of `getAllProperties`. -/
def ownerText : String :=
  "\n      SELECT *\n      FROM properties\n      WHERE owner_id = $1\n      LIMIT $2;\n      "

/-- Step 1 of the builder: `SELECT`, `FROM`, `JOIN`. -/
def selectText : String :=
  "\n  SELECT properties.*, avg(property_reviews.rating) as average_rating\n  FROM properties\n  JOIN property_reviews ON properties.id = property_id\n  "

/-- The two variables the builder mutates. -/
structure Builder where
  queryString : String
  queryParams : List Scalar
  deriving DecidableEq

/-- The block `if (options.city) ...`. -/
def cityClause (options : Options) (b : Builder) : Builder :=
  match options.city with
  | some city =>
    if city != "" then
      let queryParams := b.queryParams ++ [Scalar.str ("%" ++ city ++ "%")]
      ⟨b.queryString ++ ("WHERE city LIKE $" ++ toString queryParams.length ++ " "),
        queryParams⟩
    else b
  | none => b

/-- The block `if (options.minimum_price_per_night && options.maximum_price_per_night) ...`. -/
def priceClause (options : Options) (b : Builder) : Builder :=
  match options.minimum_price_per_night, options.maximum_price_per_night with
  | some lo, some hi =>
    if lo.truthy && hi.truthy then
      let queryParams := b.queryParams ++ [lo.times100, hi.times100]
      ⟨b.queryString ++ ("AND cost_per_night BETWEEN $" ++ toString (queryParams.length - 1)
          ++ " AND $" ++ toString queryParams.length),
        queryParams⟩
    else b
  | _, _ => b

/-- Step 3 of the builder: the statement `queryString += "GROUP BY properties.id "`. -/
def groupClause (b : Builder) : Builder :=
  ⟨b.queryString ++ "GROUP BY properties.id ", b.queryParams⟩

/-- The block `if (options.minimum_rating) ...`. -/
def ratingClause (options : Options) (b : Builder) : Builder :=
  match options.minimum_rating with
  | some rating =>
    if rating.truthy then
      let queryParams := b.queryParams ++ [rating]
      ⟨b.queryString ++ ("HAVING avg(property_reviews.rating) >= $"
          ++ toString queryParams.length),
        queryParams⟩
    else b
  | none => b

/-- Step 5 of the builder: `ORDER BY`, `LIMIT`, with the cap pushed last. -/
def limitClause (limit : Scalar) (b : Builder) : Builder :=
  let queryParams := b.queryParams ++ [limit]
  ⟨b.queryString ++ ("\n  ORDER BY cost_per_night\n  LIMIT $" ++ toString queryParams.length
      ++ ";\n  "),
    queryParams⟩

/-- The general path of `getAllProperties`: the statement and the parameter list it
assembles, in source order. -/
def buildQuery (options : Options) (limit : Scalar) : Builder :=
  limitClause limit
    (ratingClause options
      (groupClause
        (priceClause options
          (cityClause options ⟨selectText, []⟩))))

/-- The default parameter `limit = 10`. -/
def capOf (limit : Option Scalar) : Scalar :=
  limit.getD (Scalar.int 10)

/-- The statement and the parameter list that `getAllProperties` hands to `pool.query`:
the owner branch when `options.owner_id` is truthy, the builder otherwise. -/
def getAllPropertiesCall (options : Options) (limit : Option Scalar) : Builder :=
  match options.owner_id with
  | some owner_id =>
    if owner_id.truthy then ⟨ownerText, [owner_id, capOf limit]⟩
    else buildQuery options (capOf limit)
  | none => buildQuery options (capOf limit)

/-- Get all properties. Both branches end in `.then(res => res.rows)` and neither has
a `.catch`. -/
def getAllProperties (pool : Pool) (options : Options) (limit : Option Scalar) :
    Promise (List Row) :=
  let call := getAllPropertiesCall options limit
  (pool.run call.queryString call.queryParams).thenDo (fun res => res.rows)

/-- The argument of `addProperty`. Every field except `cost_per_night` is passed to
the store as it is. -/
structure Property where
  owner_id : Scalar
  title : Scalar
  description : Scalar
  thumbnail_photo_url : Scalar
  cover_photo_url : Scalar
  cost_per_night : Scalar
  street : Scalar
  city : Scalar
  province : Scalar
  post_code : Scalar
  country : Scalar
  parking_spaces : Scalar
  number_of_bathrooms : Scalar
  number_of_bedrooms : Scalar
  deriving DecidableEq

/-- Statement text of `addProperty`. -/
def addPropertyText : String :=
  "\n  INSERT INTO properties \n  (owner_id, title, description, thumbnail_photo_url, cover_photo_url, cost_per_night, street, city, province, post_code, country, parking_spaces, number_of_bathrooms, number_of_bedrooms)\n  VALUES ($1, $2, $3, $4, $5, $6, $7, $8, $9, $10, $11, $12, $13, $14)\n  RETURNING *;\n  "

/-- The statement and the parameter list that `addProperty` hands to `pool.query`. -/
def addPropertyCall (property : Property) : Builder :=
  let queryParams := [property.owner_id, property.title, property.description,
    property.thumbnail_photo_url, property.cover_photo_url,
    property.cost_per_night.times100,
    property.street, property.city, property.province, property.post_code, property.country,
    property.parking_spaces, property.number_of_bathrooms, property.number_of_bedrooms]
  let queryString := addPropertyText
  ⟨queryString, queryParams⟩

/-- Add a property to the database. -/
def addProperty (pool : Pool) (property : Property) : Promise (List Row) :=
  let call := addPropertyCall property
  (pool.run call.queryString call.queryParams).thenDo (fun res => res.rows)

/-! ## Reading a statement

The store numbers its positional parameters `$1`, `$2`, ...; the functions below read
the placeholders and the words off a statement text. -/

/-- State of the placeholder reader: outside a placeholder, just after a `$`, or
inside the digits of a placeholder whose value so far is `n`. -/
inductive Scan where
  | idle
  | dollar
  | digits (n : Nat)

/-- Reader state after a character that does not continue a placeholder. -/
def scanStart (c : Char) : Scan :=
  if c = '$' then Scan.dollar else Scan.idle

/-- Reads a statement left to right and lists every placeholder `$k` (a `$` followed by
at least one decimal digit, digits taken maximally) as `k` together with the character
that follows its digits (`none` at the end of the text). -/
def scan : Scan → List Char → List (Nat × Option Char)
  | .idle, [] => []
  | .dollar, [] => []
  | .digits n, [] => [(n, none)]
  | .idle, c :: cs => scan (scanStart c) cs
  | .dollar, c :: cs =>
    if c.isDigit then scan (.digits (c.toNat - 48)) cs else scan (scanStart c) cs
  | .digits n, c :: cs =>
    if c.isDigit then scan (.digits (10 * n + (c.toNat - 48))) cs
    else (n, some c) :: scan (scanStart c) cs

/-- The placeholder numbers of a statement, left to right. -/
def placeholders (s : String) : List Nat :=
  (scan Scan.idle s.data).map Prod.fst

/-- The character following each placeholder of a statement, left to right. -/
def placeholderFollowers (s : String) : List (Option Char) :=
  (scan Scan.idle s.data).map Prod.snd

/-- A placeholder is a delimited token when whitespace or `;` follows its digits. -/
def delimiter : Option Char → Bool
  | some c => c.isWhitespace || c == ';'
  | none => false

/-- Splits on whitespace; `cur` holds the current word in reverse. -/
def wordsFrom : List Char → List Char → List String
  | cur, [] => if cur.isEmpty then [] else [String.mk cur.reverse]
  | cur, c :: cs =>
    if c.isWhitespace then
      if cur.isEmpty then wordsFrom [] cs else String.mk cur.reverse :: wordsFrom [] cs
    else wordsFrom (c :: cur) cs

/-- The whitespace-separated words of a statement, left to right. -/
def words (s : String) : List String :=
  wordsFrom [] s.data

/-- The column list of an `INSERT`: the names between the first `(` and the next `)`,
separated by commas. -/
def insertColumns (s : String) : List String :=
  (((s.data.dropWhile (fun c => c != '(')).drop 1).takeWhile (fun c => c != ')')).foldr
    (fun c acc =>
      if c == ',' then "" :: acc
      else if c.isWhitespace then acc
      else match acc with
        | [] => [String.singleton c]
        | w :: ws => (String.singleton c ++ w) :: ws)
    [""]

/-- Property lookup `property[name]` on the argument of `addProperty`. -/
def Property.get (p : Property) : String → Option Scalar
  | "owner_id" => some p.owner_id
  | "title" => some p.title
  | "description" => some p.description
  | "thumbnail_photo_url" => some p.thumbnail_photo_url
  | "cover_photo_url" => some p.cover_photo_url
  | "cost_per_night" => some p.cost_per_night
  | "street" => some p.street
  | "city" => some p.city
  | "province" => some p.province
  | "post_code" => some p.post_code
  | "country" => some p.country
  | "parking_spaces" => some p.parking_spaces
  | "number_of_bathrooms" => some p.number_of_bathrooms
  | "number_of_bedrooms" => some p.number_of_bedrooms
  | _ => none

/-! ## Specification-side definitions -/

/-- The parameter list described clause by clause, a filter counting as present when
its key is in the bag. -/
def referenceParams (o : Options) (limit : Option Scalar) : List Scalar :=
  (match o.city with
    | some city => [Scalar.str ("%" ++ city ++ "%")]
    | none => [])
  ++ (match o.minimum_price_per_night, o.maximum_price_per_night with
    | some lo, some hi => [lo.times100, hi.times100]
    | _, _ => [])
  ++ (match o.minimum_rating with
    | some rating => [rating]
    | none => [])
  ++ [match limit with
    | some cap => cap
    | none => Scalar.int 10]

/-- The parameter list described clause by clause, a filter counting only when its key
is in the bag and its value is truthy (a string other than the empty one, a number
other than `0`, `-0` and `NaN`). -/
def truthyReferenceParams (o : Options) (limit : Option Scalar) : List Scalar :=
  (match o.city with
    | some city => if city = "" then [] else [Scalar.str ("%" ++ city ++ "%")]
    | none => [])
  ++ (match o.minimum_price_per_night, o.maximum_price_per_night with
    | some lo, some hi =>
      if lo.truthy = false ∨ hi.truthy = false then [] else [lo.times100, hi.times100]
    | _, _ => [])
  ++ (match o.minimum_rating with
    | some rating => if rating.truthy then [rating] else []
    | none => [])
  ++ [match limit with
    | some cap => cap
    | none => Scalar.int 10]

/-- The bag with both price bounds taken out. -/
def Options.withoutPriceBounds (o : Options) : Options :=
  { o with minimum_price_per_night := none, maximum_price_per_night := none }

/-! ## Sample inputs -/

/-- A bag with a city filter and a price range. -/
def cityPriceBag : Options :=
  ⟨none, some "Vancouver", some (Scalar.int 100), some (Scalar.int 200), none⟩

/-- A bag with every general filter set. -/
def fullBag : Options :=
  ⟨none, some "Vancouver", some (Scalar.int 100), some (Scalar.int 200), some (Scalar.int 4)⟩

/-- A bag with a price range only. -/
def priceOnlyBag : Options :=
  ⟨none, none, some (Scalar.int 100), some (Scalar.int 200), none⟩

/-- A bag whose lower price bound is zero. -/
def zeroMinimumBag : Options :=
  ⟨none, none, some (Scalar.int 0), some (Scalar.int 200), none⟩

/-- A bag with a lone lower price bound next to a city filter. -/
def loneMinimumBag : Options :=
  ⟨none, some "Toronto", some (Scalar.int 100), none, none⟩

/-- A bag whose owner identifier is the number zero. -/
def zeroOwnerBag : Options :=
  ⟨some (Scalar.int 0), some "Vancouver", none, none, none⟩

/-- A bag with an owner identifier and other filters. -/
def ownerBag : Options :=
  ⟨some (Scalar.int 7), some "Vancouver", some (Scalar.int 100), some (Scalar.int 200),
    some (Scalar.int 4)⟩

/-- The bag `ownerBag` with different city, price and rating filters. -/
def ownerBagOther : Options :=
  ⟨some (Scalar.int 7), some "Toronto", none, some (Scalar.int 50), none⟩

/-- A user row as the store returns it. -/
def annRow : Row :=
  [("id", Scalar.int 1), ("name", Scalar.str "Ann"), ("email", Scalar.str "ann@example.com"),
    ("password", Scalar.str "pw")]

/-- The argument that creates `annRow`. -/
def ann : User :=
  ⟨Scalar.str "Ann", Scalar.str "ann@example.com", Scalar.str "pw"⟩

/-- A pool whose every query succeeds with the given rows. -/
def poolReturning (rows : List Row) : Pool :=
  ⟨fun _ _ => Except.ok ⟨rows⟩⟩

/-- A pool whose every query fails with the given message. -/
def poolFailing (message : String) : Pool :=
  ⟨fun _ _ => Except.error ⟨message⟩⟩

/-- A listing with a nightly cost of 150. -/
def cabin : Property :=
  ⟨Scalar.int 7, Scalar.str "Cabin", Scalar.str "By the lake", Scalar.str "t.png",
    Scalar.str "c.png", Scalar.int 150, Scalar.str "1 Lake Rd", Scalar.str "Tofino",
    Scalar.str "BC",
    Scalar.str "V0R 2Z0", Scalar.str "Canada", Scalar.int 2, Scalar.int 1, Scalar.int 3⟩

/-! ## Arithmetic of the products -/

/-- A number below `2 ^ k` has at most `k` binary digits. -/
theorem bitLengthFrom_le (fuel : Nat) :
    ∀ (n k : Nat), n < 2 ^ k → bitLengthFrom fuel n ≤ k := by
  induction fuel with
  | zero => intro n k _; simp [bitLengthFrom]
  | succ f ih =>
    intro n k h
    unfold bitLengthFrom
    by_cases hn : n = 0
    · simp [hn]
    · simp only [hn, if_false]
      cases k with
      | zero => simp at h; exact absurd h hn
      | succ k =>
        have : n / 2 < 2 ^ k := by
          rw [Nat.div_lt_iff_lt_mul (by decide)]
          rw [Nat.pow_succ] at h
          exact h
        have := ih (n / 2) k this
        omega

/-- A number below `2 ^ k` has at most `k` binary digits. -/
theorem bitLength_le (n k : Nat) (h : n < 2 ^ k) : bitLength n ≤ k :=
  bitLengthFrom_le n n k h

/-- Any step budget of at least `m` gives the same result. -/
theorem stripFrom_fuel (f : Nat) : ∀ (g m : Nat) (e : Int), m ≤ f → m ≤ g →
    stripFrom f m e = stripFrom g m e := by
  induction f with
  | zero =>
    intro g m e hf _
    have hm : m = 0 := by omega
    subst hm
    cases g <;> simp [stripFrom]
  | succ f ih =>
    intro g m e hf hg
    cases g with
    | zero =>
      have hm : m = 0 := by omega
      subst hm
      simp [stripFrom]
    | succ g =>
      unfold stripFrom
      by_cases hc : m % 2 = 0 ∧ m ≠ 0
      · simp only [hc, and_self, ne_eq, not_false_eq_true, if_true]
        exact ih g (m / 2) (e + 1) (by omega) (by omega)
      · simp only [hc, if_false]

/-- Halving keeps the value: the result is `m = m₁ * 2 ^ k` with the exponent raised
by `k`. -/
theorem stripFrom_value (f : Nat) : ∀ (m : Nat) (e : Int),
    ∃ k : Nat, (stripFrom f m e).2 = e + k ∧ (stripFrom f m e).1 * 2 ^ k = m := by
  induction f with
  | zero => intro m e; exact ⟨0, by simp [stripFrom]⟩
  | succ f ih =>
    intro m e
    unfold stripFrom
    by_cases hc : m % 2 = 0 ∧ m ≠ 0
    · simp only [hc, and_self, ne_eq, not_false_eq_true, if_true]
      obtain ⟨k, h1, h2⟩ := ih (m / 2) (e + 1)
      refine ⟨k + 1, ?_, ?_⟩
      · rw [h1]; push_cast; ring
      · rw [Nat.pow_succ, ← Nat.mul_assoc, h2]; omega
    · simp only [hc, if_false]
      exact ⟨0, by simp⟩

/-- A factor two of the mantissa can be moved to the exponent. -/
theorem normalize_double (s : Bool) (m : Nat) (e : Int) (hm : m ≠ 0) :
    normalize s (2 * m) e = normalize s m (e + 1) := by
  unfold normalize
  have h2 : 2 * m ≠ 0 := by omega
  simp only [h2, hm, if_false]
  have : stripFrom (2 * m) (2 * m) e = stripFrom m m (e + 1) := by
    obtain ⟨f, hf⟩ : ∃ f, 2 * m = f + 1 := ⟨2 * m - 1, by omega⟩
    rw [hf]
    conv => lhs; unfold stripFrom
    have hc : (f + 1) % 2 = 0 ∧ f + 1 ≠ 0 := by omega
    simp only [hc, and_self, ne_eq, not_false_eq_true, if_true]
    have hd : (f + 1) / 2 = m := by omega
    rw [hd]
    exact stripFrom_fuel f m m (e + 1) (by omega) (le_refl m)
  rw [this]

/-- A power of two of the mantissa can be moved to the exponent. -/
theorem normalize_shift (s : Bool) (m : Nat) (hm : m ≠ 0) (k : Nat) : ∀ e : Int,
    normalize s (m * 2 ^ k) e = normalize s m (e + k) := by
  induction k with
  | zero => intro e; simp
  | succ k ih =>
    intro e
    have : m * 2 ^ (k + 1) = 2 * (m * 2 ^ k) := by rw [Nat.pow_succ]; ring
    rw [this, normalize_double s (m * 2 ^ k) e (by positivity), ih (e + 1)]
    congr 1
    push_cast
    ring

/-- A value that fits in 53 binary digits within the exponent range is not rounded. -/
theorem roundScaled_exact (s : Bool) (m : Nat) (e : Int) (k : Nat) (hm : m < 2 ^ k)
    (hk : k ≤ 53) (he : -1074 ≤ e) (hhi : e + k ≤ 1024) :
    roundScaled s m e = normalize s m e := by
  have hb := bitLength_le m k hm
  have hx : max (max (e + (bitLength m : Int) - 53) (-1074)) e = e := by omega
  unfold roundScaled
  simp only [hx, sub_self, Int.toNat_zero, pow_zero, Nat.div_one, Nat.mod_one]
  unfold roundUp finish
  have h1 : ¬ (2 * 0 > 1 ∨ (2 * 0 = 1 ∧ m % 2 = 1)) := by omega
  have h2 : ¬ ((bitLength m : Int) + e > 1024) := by omega
  simp only [h1, h2, if_false]


/-- An integer below `2 ^ 53` in absolute value is a double. -/
theorem ofInt_exact (n : Int) (h : n.natAbs < 2 ^ 53) :
    Number.ofInt n = normalize (decide (n < 0)) n.natAbs 0 :=
  roundScaled_exact _ _ 0 53 h (le_refl 53) (by omega) (by omega)

/-- For an integer `n` with `|n| * 100 < 2 ^ 53` the double product `n * 100` is the
exact product. -/
theorem mul100_ofInt (n : Int) (h : n.natAbs * 100 < 2 ^ 53) :
    Number.mul (Number.ofInt n) (Number.ofInt 100) = Number.ofInt (n * 100) := by
  have h100 : Number.ofInt 100 = Number.fin false 25 2 := by decide
  have hsign : decide (n * 100 < 0) = decide (n < 0) := by
    congr 1
    apply propext
    constructor <;> intro hh <;> omega
  have habs : (n * 100).natAbs = n.natAbs * 100 := by
    rw [Int.natAbs_mul]; rfl
  rw [ofInt_exact (n * 100) (by rw [habs]; exact h), hsign, habs, h100,
    ofInt_exact n (by omega)]
  by_cases ha : n.natAbs = 0
  · have hn : n = 0 := Int.natAbs_eq_zero.mp ha
    subst hn
    decide
  · obtain ⟨k, h1, h2⟩ := stripFrom_value n.natAbs n.natAbs 0
    have hnorm : normalize (decide (n < 0)) n.natAbs 0
        = Number.fin (decide (n < 0)) (stripFrom n.natAbs n.natAbs 0).1
            (stripFrom n.natAbs n.natAbs 0).2 := by
      unfold normalize
      simp only [ha, if_false]
    rw [hnorm, h1]
    generalize (stripFrom n.natAbs n.natAbs 0).1 = m at h2
    have hm : m ≠ 0 := by
      intro h0
      rw [h0] at h2
      simp at h2
      exact ha h2.symm
    have hprod : n.natAbs * 100 = (m * 25) * 2 ^ (k + 2) := by
      rw [← h2, Nat.pow_add]; ring
    have hk : k + 2 ≤ 53 := by
      by_contra hcon
      have : 2 ^ 53 ≤ 2 ^ (k + 2) := Nat.pow_le_pow_right (by decide) (by omega)
      have : 2 ^ (k + 2) ≤ (m * 25) * 2 ^ (k + 2) := Nat.le_mul_of_pos_left _ (by omega)
      omega
    have hsmall : m * 25 < 2 ^ (53 - (k + 2)) := by
      have hsplit : 2 ^ 53 = 2 ^ (53 - (k + 2)) * 2 ^ (k + 2) := by
        rw [← Nat.pow_add]; congr 1; omega
      rw [hprod, hsplit] at h
      exact Nat.lt_of_mul_lt_mul_right h
    show roundScaled (decide (n < 0) != false) (m * 25) (0 + (k : Int) + 2) = _
    rw [roundScaled_exact _ (m * 25) _ (53 - (k + 2)) hsmall (by omega) (by omega) (by omega),
      hprod, normalize_shift _ (m * 25) (by omega) (k + 2) 0]
    have hexp : (0 : Int) + (k : Int) + 2 = 0 + ((k + 2 : Nat) : Int) := by omega
    simp only [Bool.bne_false, hexp]

/-- The expression `value * 100` on an integer `n` with `|n| * 100 < 2 ^ 53`. -/
theorem times100_int (n : Int) (h : n.natAbs * 100 < 2 ^ 53) :
    (Scalar.int n).times100 = Scalar.int (n * 100) := by
  unfold Scalar.times100 Scalar.int Scalar.toNumber
  rw [mul100_ofInt n h]

/-- An integer `n` below `2 ^ 53` in absolute value is truthy exactly when it is not
zero. -/
theorem int_truthy (n : Int) (h : n.natAbs < 2 ^ 53) :
    (Scalar.int n).truthy = true ↔ n ≠ 0 := by
  unfold Scalar.int Scalar.truthy
  rw [ofInt_exact n h]
  unfold normalize
  by_cases ha : n.natAbs = 0
  · have hn : n = 0 := Int.natAbs_eq_zero.mp ha
    simp [ha, hn, Number.truthy]
  · have hn : n ≠ 0 := fun h0 => ha (by rw [h0]; rfl)
    obtain ⟨k, _, h2⟩ := stripFrom_value n.natAbs n.natAbs 0
    have hm : (stripFrom n.natAbs n.natAbs 0).1 ≠ 0 := by
      intro h0
      rw [h0] at h2
      simp at h2
      exact ha h2.symm
    simp [ha, hn, Number.truthy, hm]

/-- Sample products: beyond `2 ^ 53` and on fractions the product is rounded, a string
factor is converted first; the string `"0"` is truthy, the empty string is not. -/
theorem times100_samples :
    (Scalar.int 150).times100 = Scalar.int 15000
      ∧ (Scalar.int 360287970189641).times100 = Scalar.int 36028797018964096
      ∧ (Scalar.num (stringToNumber "19.99")).times100
          = Scalar.num (stringToNumber "1998.9999999999998")
      ∧ (Scalar.num (stringToNumber "1.1")).times100
          = Scalar.num (stringToNumber "110.00000000000001")
      ∧ (Scalar.str "150").times100 = Scalar.int 15000
      ∧ (Scalar.str "0").times100 = Scalar.int 0
      ∧ (Scalar.str "0").truthy = true
      ∧ (Scalar.str "").truthy = false
      ∧ (Scalar.num Number.nan).truthy = false := by
  decide

/-- Two string bounds `"0"` and `"200"` are both truthy: the range is applied, with the
converted products as parameters. -/
theorem string_bounds_applied :
    (getAllPropertiesCall
        ⟨none, none, some (Scalar.str "0"), some (Scalar.str "200"), none⟩ none).queryParams
      = [Scalar.int 0, Scalar.int 20000, Scalar.int 10] := by
  decide

/-! ## The builder, clause by clause -/

theorem cityClause_eq (o : Options) (b : Builder) :
    cityClause o b =
      if truthyStr o.city then
        ⟨b.queryString ++ ("WHERE city LIKE $" ++ toString (b.queryParams.length + 1) ++ " "),
          b.queryParams ++ [Scalar.str ("%" ++ o.city.getD "" ++ "%")]⟩
      else b := by
  unfold cityClause truthyStr
  cases o.city with
  | none => simp
  | some c => by_cases h : c = "" <;> simp [h]

theorem priceClause_eq (o : Options) (b : Builder) :
    priceClause o b =
      if (truthyScalar o.minimum_price_per_night && truthyScalar o.maximum_price_per_night) then
        ⟨b.queryString ++ ("AND cost_per_night BETWEEN $"
            ++ toString (b.queryParams.length + 2 - 1)
            ++ " AND $" ++ toString (b.queryParams.length + 2)),
          b.queryParams ++ [(o.minimum_price_per_night.getD (Scalar.int 0)).times100,
            (o.maximum_price_per_night.getD (Scalar.int 0)).times100]⟩
      else b := by
  unfold priceClause truthyScalar
  cases o.minimum_price_per_night <;> cases o.maximum_price_per_night <;> simp

theorem ratingClause_eq (o : Options) (b : Builder) :
    ratingClause o b =
      if truthyScalar o.minimum_rating then
        ⟨b.queryString ++ ("HAVING avg(property_reviews.rating) >= $"
            ++ toString (b.queryParams.length + 1)),
          b.queryParams ++ [o.minimum_rating.getD (Scalar.int 0)]⟩
      else b := by
  unfold ratingClause truthyScalar
  cases o.minimum_rating <;> simp

/-- Without a truthy owner identifier `getAllProperties` issues what the builder
assembles. -/
theorem getAllPropertiesCall_general (o : Options) (limit : Option Scalar)
    (h : truthyScalar o.owner_id = false) :
    getAllPropertiesCall o limit = buildQuery o (capOf limit) := by
  unfold getAllPropertiesCall
  cases ho : o.owner_id with
  | none => rfl
  | some owner =>
    have : owner.truthy = false := by simpa [truthyScalar, ho] using h
    simp [this]

/-- The builder numbers its placeholders `1, 2, ..., n` for its `n` parameters. -/
theorem buildQuery_placeholders (o : Options) (limit : Scalar) :
    placeholders (buildQuery o limit).queryString
      = List.range' 1 (buildQuery o limit).queryParams.length := by
  unfold buildQuery
  rw [cityClause_eq, priceClause_eq, ratingClause_eq]
  cases truthyStr o.city <;>
    cases truthyScalar o.minimum_price_per_night <;>
    cases truthyScalar o.maximum_price_per_night <;>
    cases truthyScalar o.minimum_rating <;>
    simp only [limitClause, groupClause, Bool.false_eq_true, if_false, if_true, Bool.and_self,
      Bool.and_false, Bool.and_true, List.length_append, List.length_cons, List.length_nil,
      List.nil_append, Nat.reduceAdd, Nat.reduceSub] <;> rfl

/-! ## Claims -/

/-- Claim C1. For every filter bag and every cap (in particular for every bag without an
owner filter), the placeholders of the statement handed to the store, read left to
right, are exactly `$1, $2, ..., $n` where `n` is the length of the parameter list:
each occurs once, in increasing order, with no gap and none above `n`. -/
theorem getAllProperties_placeholders_match_params (o : Options) (limit : Option Scalar) :
    placeholders (getAllPropertiesCall o limit).queryString
      = List.range' 1 (getAllPropertiesCall o limit).queryParams.length := by
  cases h : truthyScalar o.owner_id with
  | false =>
    rw [getAllPropertiesCall_general o limit h]
    exact buildQuery_placeholders o (capOf limit)
  | true =>
    unfold getAllPropertiesCall
    cases ho : o.owner_id with
    | none => simp [truthyScalar, ho] at h
    | some owner =>
      have : owner.truthy = true := by simpa [truthyScalar, ho] using h
      simp only [this, if_true]
      rfl

/-- Claim C2, counterexample. The bag with `minimum_price_per_night = 0` and
`maximum_price_per_night = 200` has no owner filter and both price bounds present, yet
the parameter list handed to the store is `[10]`, while the reference list is
`[0, 20000, 10]`. -/
theorem zero_minimum_price_not_in_params :
    zeroMinimumBag.owner_id = none
      ∧ (getAllPropertiesCall zeroMinimumBag none).queryParams = [Scalar.int 10]
      ∧ referenceParams zeroMinimumBag none
          = [Scalar.int 0, Scalar.int 20000, Scalar.int 10]
      ∧ (getAllPropertiesCall zeroMinimumBag none).queryParams
          ≠ referenceParams zeroMinimumBag none := by
  decide

/-- Claim C2, amended. For every filter bag whose owner identifier is absent or falsy,
the parameter list handed to the store is: the pattern `%city%` if `city` is present and
not the empty string; then the products `minimum_price * 100` and `maximum_price * 100`,
as the source computes them, if both bounds are present and truthy; then `minimum_rating`
if it is present and truthy; then the cap, which is 10 when the caller gives none.
An integer bound `n` with `|n| * 100 < 2 ^ 53` is truthy exactly when it is not zero,
and its product is the exact `n * 100`. -/
theorem getAllProperties_params_eq_reference (o : Options) (limit : Option Scalar)
    (h : truthyScalar o.owner_id = false) :
    (getAllPropertiesCall o limit).queryParams = truthyReferenceParams o limit
      ∧ ∀ n : Int, n.natAbs * 100 < 2 ^ 53 →
          (Scalar.int n).times100 = Scalar.int (n * 100)
            ∧ ((Scalar.int n).truthy = true ↔ n ≠ 0) := by
  refine ⟨?_, fun n hn => ⟨times100_int n hn, int_truthy n (by omega)⟩⟩
  rw [getAllPropertiesCall_general o limit h]
  obtain ⟨owner, city, lo, hi, rating⟩ := o
  unfold buildQuery limitClause ratingClause groupClause priceClause cityClause
    truthyReferenceParams capOf
  cases city <;> cases lo <;> cases hi <;> cases rating <;> cases limit <;>
    simp <;> split_ifs <;> simp_all

/-- Claim C2, witness of the amended statement on a bag with every general filter. -/
theorem getAllProperties_params_eq_reference_witness :
    truthyScalar fullBag.owner_id = false
      ∧ (getAllPropertiesCall fullBag none).queryParams = truthyReferenceParams fullBag none :=
  ⟨by decide, (getAllProperties_params_eq_reference fullBag none (by decide)).1⟩

/-- Claim C3, counterexample. The bag with `owner_id = 0` and `city = "Vancouver"` has
its owner identifier present, yet `getAllProperties` does not issue the owner statement
with `[0, 10]`: it takes the general path and applies the city filter. -/
theorem zero_owner_takes_general_path :
    zeroOwnerBag.owner_id = some (Scalar.int 0)
      ∧ getAllPropertiesCall zeroOwnerBag none
          ≠ ⟨ownerText, [Scalar.int 0, Scalar.int 10]⟩
      ∧ (getAllPropertiesCall zeroOwnerBag none).queryParams
          = [Scalar.str "%Vancouver%", Scalar.int 10] := by
  decide

/-- Claim C3, amended. For every filter bag in which `owner_id` is present and truthy
(a number other than `0`, `-0` and `NaN`, or a non-empty string), `getAllProperties`
ignores all other filters:
the statement is the fixed owner statement, whose words are
`SELECT * FROM properties WHERE owner_id = $1 LIMIT $2;` (no join, grouping or rating
aggregate), the parameter list is `[owner_id, cap]`, and every other bag with the same
owner identifier yields the same statement and parameters for the same cap. -/
theorem getAllProperties_owner_branch (o : Options) (limit : Option Scalar) (owner : Scalar)
    (h : o.owner_id = some owner) (ht : owner.truthy = true) :
    getAllPropertiesCall o limit = ⟨ownerText, [owner, capOf limit]⟩
      ∧ words (getAllPropertiesCall o limit).queryString
          = ["SELECT", "*", "FROM", "properties", "WHERE", "owner_id", "=", "$1", "LIMIT", "$2;"]
      ∧ ∀ other : Options, other.owner_id = some owner →
          getAllPropertiesCall other limit = getAllPropertiesCall o limit := by
  have key : ∀ b : Options, b.owner_id = some owner →
      getAllPropertiesCall b limit = ⟨ownerText, [owner, capOf limit]⟩ := by
    intro b hb
    unfold getAllPropertiesCall
    simp only [hb, ht, if_true]
  refine ⟨key o h, ?_, fun other hother => (key other hother).trans (key o h).symm⟩
  rw [key o h]
  show words ownerText = _
  decide

/-- Claim C3, witness of the amended statement: two bags with owner identifier 7 and
different city, price and rating filters. -/
theorem getAllProperties_owner_branch_witness :
    ownerBag.owner_id = some (Scalar.int 7) ∧ (Scalar.int 7).truthy = true
      ∧ getAllPropertiesCall ownerBag (some (Scalar.int 20))
        = ⟨ownerText, [Scalar.int 7, Scalar.int 20]⟩
      ∧ getAllPropertiesCall ownerBagOther (some (Scalar.int 20))
        = getAllPropertiesCall ownerBag (some (Scalar.int 20)) :=
  have w := getAllProperties_owner_branch ownerBag (some (Scalar.int 20)) (Scalar.int 7)
    rfl rfl
  ⟨rfl, rfl, w.1, w.2.2 ownerBagOther rfl⟩

/-- Claim C4, the code at the failing input. With no city and both price bounds the
statement has no `WHERE`: its first predicate is introduced by `AND`, directly after the
join condition. -/
theorem price_range_without_city_has_no_where :
    priceOnlyBag.owner_id = none ∧ priceOnlyBag.city = none
      ∧ words (getAllPropertiesCall priceOnlyBag none).queryString
          = ["SELECT", "properties.*,", "avg(property_reviews.rating)", "as", "average_rating",
              "FROM", "properties", "JOIN", "property_reviews", "ON", "properties.id", "=",
              "property_id", "AND", "cost_per_night", "BETWEEN", "$1", "AND", "$2GROUP", "BY",
              "properties.id", "ORDER", "BY", "cost_per_night", "LIMIT", "$3;"]
      ∧ "WHERE" ∉ words (getAllPropertiesCall priceOnlyBag none).queryString := by
  decide

/-- Claim C5. For every filter bag in which exactly one of `minimum_price_per_night` and
`maximum_price_per_night` is present, the statement and the parameter list handed to the
store are those of the same bag with the lone bound removed (which is the bag without
price bounds). This holds with or without an owner filter. -/
theorem lone_price_bound_not_applied (o : Options) (limit : Option Scalar)
    (hlone : o.minimum_price_per_night.isSome ≠ o.maximum_price_per_night.isSome) :
    getAllPropertiesCall o.withoutPriceBounds limit = getAllPropertiesCall o limit := by
  obtain ⟨owner, city, lo, hi, rating⟩ := o
  cases lo <;> cases hi <;> simp at hlone <;>
    simp [Options.withoutPriceBounds, getAllPropertiesCall, buildQuery, priceClause,
      cityClause, ratingClause]

/-- Claim C5, witness: a lone lower bound of 100 next to a city filter. -/
theorem lone_price_bound_not_applied_witness :
    loneMinimumBag.minimum_price_per_night.isSome ≠ loneMinimumBag.maximum_price_per_night.isSome
      ∧ getAllPropertiesCall ⟨none, some "Toronto", none, none, none⟩ none
          = getAllPropertiesCall loneMinimumBag none :=
  ⟨by decide, lone_price_bound_not_applied loneMinimumBag none (by decide)⟩

/-- Claim C6. For every pool, filter bag and cap, on the owner path and on the general
path alike, `getAllProperties` settles as the store gateway did on the call it was
handed: a success with rows is fulfilled with those rows, unmodified and in the same
order, and a failure is rejected with that failure; nothing is written to the console. -/
theorem getAllProperties_settles_as_gateway (pool : Pool) (o : Options)
    (limit : Option Scalar) :
    (∀ res : QueryResult,
        pool.query (getAllPropertiesCall o limit).queryString
            (getAllPropertiesCall o limit).queryParams = Except.ok res →
          getAllProperties pool o limit = ⟨[], Except.ok res.rows⟩)
      ∧ (∀ e : StoreError,
        pool.query (getAllPropertiesCall o limit).queryString
            (getAllPropertiesCall o limit).queryParams = Except.error e →
          getAllProperties pool o limit = ⟨[], Except.error e⟩) := by
  constructor
  · intro res hres
    simp only [getAllProperties, Pool.run, Promise.thenDo, hres]
  · intro e he
    simp only [getAllProperties, Pool.run, Promise.thenDo, he]

/-- Claim C6, witness: a succeeding pool on the owner path and a failing pool on the
general path. -/
theorem getAllProperties_settles_as_gateway_witness :
    getAllProperties (poolReturning [annRow, []]) ownerBag none
        = ⟨[], Except.ok [annRow, []]⟩
      ∧ getAllProperties (poolFailing "connection refused") fullBag none
        = ⟨[], Except.error ⟨"connection refused"⟩⟩ :=
  ⟨(getAllProperties_settles_as_gateway (poolReturning [annRow, []]) ownerBag none).1
      ⟨[annRow, []]⟩ rfl,
    (getAllProperties_settles_as_gateway (poolFailing "connection refused") fullBag none).2
      ⟨"connection refused"⟩ rfl⟩

/-- Claim C7, counterexample. When the store gateway fails with "connection refused",
`getUserWithEmail` is fulfilled with `undefined` after logging the message: the caller
receives a success, not the failure. -/
theorem getUserWithEmail_swallows_failure :
    (poolFailing "connection refused").query getUserWithEmailText
        [Scalar.str "ann@example.com"] = Except.error ⟨"connection refused"⟩
      ∧ getUserWithEmail (poolFailing "connection refused") (Scalar.str "ann@example.com")
        = ⟨["connection refused"], Except.ok Value.undefined⟩ :=
  ⟨rfl, rfl⟩

/-- Claim C7, amended. For every email, if the store gateway call made by
`getUserWithEmail` fails with error `e`, then `getUserWithEmail` writes `e.message` to
the console and is fulfilled with `undefined`; the failure is not passed on. -/
theorem getUserWithEmail_failure_logged (pool : Pool) (email : Scalar) (e : StoreError)
    (h : pool.query getUserWithEmailText [email] = Except.error e) :
    getUserWithEmail pool email = ⟨[e.message], Except.ok Value.undefined⟩ := by
  simp only [getUserWithEmail, Pool.run, Promise.thenDo, Promise.catchDo, h, consoleLog,
    List.nil_append]

/-- Claim C7, witness of the amended statement on a pool that refuses connections. -/
theorem getUserWithEmail_failure_logged_witness :
    (poolFailing "connection refused").query getUserWithEmailText [Scalar.str "bob@example.com"]
        = Except.error ⟨"connection refused"⟩
      ∧ getUserWithEmail (poolFailing "connection refused") (Scalar.str "bob@example.com")
        = ⟨["connection refused"], Except.ok Value.undefined⟩ :=
  ⟨rfl, getUserWithEmail_failure_logged (poolFailing "connection refused")
    (Scalar.str "bob@example.com") ⟨"connection refused"⟩ rfl⟩

/-- Claim C8. For every property record, `addProperty` hands the store an `INSERT` into
`properties` whose parameter list has exactly 14 elements, numbered `$1` to `$14`, in the
order of the statement's column list: each element is the record's field of that column
unchanged, except the sixth, which is the product `cost_per_night * 100` as the source
computes it. For an integer cost `n` with `|n| * 100 < 2 ^ 53` that product is the exact
`n * 100`; a nightly cost of 150 is passed as 15000. The promise settles as the store
gateway did on that call. -/
theorem addProperty_params (pool : Pool) (property : Property) :
    (∀ res : QueryResult,
        pool.query (addPropertyCall property).queryString
            (addPropertyCall property).queryParams = Except.ok res →
          addProperty pool property = ⟨[], Except.ok res.rows⟩)
      ∧ (∀ e : StoreError,
        pool.query (addPropertyCall property).queryString
            (addPropertyCall property).queryParams = Except.error e →
          addProperty pool property = ⟨[], Except.error e⟩)
      ∧ (words (addPropertyCall property).queryString).take 3 = ["INSERT", "INTO", "properties"]
      ∧ insertColumns (addPropertyCall property).queryString
          = ["owner_id", "title", "description", "thumbnail_photo_url", "cover_photo_url",
              "cost_per_night", "street", "city", "province", "post_code", "country",
              "parking_spaces", "number_of_bathrooms", "number_of_bedrooms"]
      ∧ placeholders (addPropertyCall property).queryString = List.range' 1 14
      ∧ (addPropertyCall property).queryParams.length = 14
      ∧ (addPropertyCall property).queryParams.map some
          = (insertColumns (addPropertyCall property).queryString).map
              (fun column =>
                if column = "cost_per_night" then some property.cost_per_night.times100
                else property.get column)
      ∧ (addPropertyCall property).queryParams.get? 5 = some property.cost_per_night.times100
      ∧ (∀ n : Int, n.natAbs * 100 < 2 ^ 53 → property.cost_per_night = Scalar.int n →
          (addPropertyCall property).queryParams.get? 5 = some (Scalar.int (n * 100)))
      ∧ (property.cost_per_night = Scalar.int 150 →
          (addPropertyCall property).queryParams.get? 5 = some (Scalar.int 15000)) := by
  have hcols : insertColumns addPropertyText
      = ["owner_id", "title", "description", "thumbnail_photo_url", "cover_photo_url",
          "cost_per_night", "street", "city", "province", "post_code", "country",
          "parking_spaces", "number_of_bathrooms", "number_of_bedrooms"] := by decide
  have hwords : (words addPropertyText).take 3 = ["INSERT", "INTO", "properties"] := by decide
  have hph : placeholders addPropertyText = List.range' 1 14 := by decide
  have hexact : ∀ n : Int, n.natAbs * 100 < 2 ^ 53 → property.cost_per_night = Scalar.int n →
      (addPropertyCall property).queryParams.get? 5 = some (Scalar.int (n * 100)) := by
    intro n hn hcost
    show some property.cost_per_night.times100 = _
    rw [hcost, times100_int n hn]
  refine ⟨?_, ?_, hwords, hcols, hph, rfl, ?_, rfl, hexact, ?_⟩
  · intro res hres
    simp only [addProperty, Pool.run, Promise.thenDo, hres]
  · intro e he
    simp only [addProperty, Pool.run, Promise.thenDo, he]
  · show List.map some _ = List.map _ (insertColumns addPropertyText)
    rw [hcols]
    rfl
  · intro h
    exact hexact 150 (by decide) h

/-- Claim C8, witness: a listing with a nightly cost of 150, inserted through a pool
that returns the created row. -/
theorem addProperty_params_witness :
    cabin.cost_per_night = Scalar.int 150
      ∧ (addPropertyCall cabin).queryParams.get? 5 = some (Scalar.int 15000)
      ∧ addProperty (poolReturning [annRow]) cabin = ⟨[], Except.ok [annRow]⟩ :=
  ⟨rfl, (addProperty_params (poolReturning []) cabin).2.2.2.2.2.2.2.2.2 rfl,
    (addProperty_params (poolReturning [annRow]) cabin).1 ⟨[annRow]⟩ rfl⟩

/-- Claim C9, the code at the failing input. When the store returns the single inserted
row, `addUser` is fulfilled with the sequence of rows holding that row, which is not the
row itself. -/
theorem addUser_returns_rows :
    (poolReturning [annRow]).query addUserText [ann.name, ann.email, ann.password]
        = Except.ok ⟨[annRow]⟩
      ∧ addUser (poolReturning [annRow]) ann = ⟨[], Except.ok (Value.rows [annRow])⟩
      ∧ Value.rows [annRow] ≠ Value.row annRow :=
  ⟨rfl, rfl, by decide⟩

/-- Claim C10, the code at the failing input. With a city filter and a price range, the
placeholder `$3` is followed directly by the `G` of `GROUP BY`. -/
theorem price_placeholder_glued_to_group_by :
    cityPriceBag.owner_id = none
      ∧ placeholders (getAllPropertiesCall cityPriceBag none).queryString = [1, 2, 3, 4]
      ∧ placeholderFollowers (getAllPropertiesCall cityPriceBag none).queryString
          = [some ' ', some ' ', some 'G', some ';']
      ∧ (placeholderFollowers (getAllPropertiesCall cityPriceBag none).queryString).map delimiter
          = [true, true, false, true] := by
  decide

end LightBnB
